import Mathlib

/-!
Shallow embedding of the manifest-driven component build orchestrator
(`tives__Insp04_PRD202510__build-379ee751.py`): the `ComponentBuilder`
class with its `run_command`, `build_component`, `build_all_components`,
`list_variants`, `show_iteration_strategies`, `run_quality_checks`
methods and the `main` CLI dispatcher.

External process execution is modelled by an environment
`env : Nat → ExecOutcome` giving the outcome of the n-th process spawned
during the run; the observable behaviour of the orchestrator is a `Trace`
recording every process invocation (command string, working directory,
description) in order, together with the list of console `print` calls.
-/

namespace Build

/-- Python `str.split()` helper: accumulate the current token (reversed)
while scanning; whitespace ends a token, empty tokens are dropped. -/
def splitWSAux : List Char → List Char → List String
  | [], acc => if acc.isEmpty then [] else [String.mk acc.reverse]
  | c :: rest, acc =>
    if c.isWhitespace then
      if acc.isEmpty then splitWSAux rest []
      else String.mk acc.reverse :: splitWSAux rest []
    else splitWSAux rest (c :: acc)

/-- Python `str.split()` with no arguments: split on runs of whitespace,
discarding empty tokens. -/
def pySplit (s : String) : List String := splitWSAux s.data []

/-- Replace every (non-overlapping, leftmost-first) occurrence of `old`
in the character list, with enough fuel; an empty `old` is left alone
(the orchestrator only ever replaces a non-empty pattern). -/
def replaceAux (old new : List Char) : Nat → List Char → List Char
  | _, [] => []
  | 0, l => l
  | fuel + 1, c :: rest =>
    if !old.isEmpty && old.isPrefixOf (c :: rest) then
      new ++ replaceAux old new fuel (List.drop (old.length - 1) rest)
    else
      c :: replaceAux old new fuel rest

/-- Python `str.replace(old, new)` for a non-empty `old`. -/
def pyReplace (s old new : String) : String :=
  String.mk (replaceAux old.data new.data s.data.length s.data)

/-- Python `str.strip()`: drop whitespace from both ends. -/
def pyStrip (s : String) : String :=
  String.mk (((s.data.dropWhile Char.isWhitespace).reverse.dropWhile Char.isWhitespace).reverse)

/-- Python `needle in hay` on character lists (substring occurrence). -/
def containsSubList (needle : List Char) : List Char → Bool
  | [] => needle.isEmpty
  | c :: rest => needle.isPrefixOf (c :: rest) || containsSubList needle rest

/-- Python substring containment `needle in hay` on strings. -/
def containsSub (needle hay : String) : Bool :=
  containsSubList needle.data hay.data

/-- Python `" ".join(l)`. -/
def joinSpace : List String → String
  | [] => ""
  | [x] => x
  | x :: rest => x ++ " " ++ joinSpace rest

/-- Pathlib division: `base / name` renders as `base ++ "/" ++ name`. -/
def pathJoin (base name : String) : String := base ++ "/" ++ name

/-- One build or test step of a component: `name`, `command` (the command
template string) and the optional `description` key. -/
structure Step where
  name : String
  command : String
  description : Option String
deriving DecidableEq

/-- One component of the manifest: `description`, ordered `buildSteps`,
ordered `testSteps`, and the optional `variants` mapping (`none` models an
absent `"variants"` key, as distinguished by `"variants" in component`). -/
structure Component where
  description : String
  buildSteps : List Step
  testSteps : List Step
  variants : Option (List (String × String))
deriving DecidableEq

/-- An iteration strategy: name and description, purely informational. -/
structure Strategy where
  name : String
  description : String
deriving DecidableEq

/-- The build manifest. Mappings are association lists in declaration
(insertion) order, matching Python `dict` iteration order. `buildOrder`
is an `Option` because the code reads `self.manifest["buildOrder"]`
directly: an absent key raises `KeyError`. -/
structure Manifest where
  basePath : String
  outputDir : String
  buildOrder : Option (List String)
  components : List (String × Component)
  qualityChecks : List (String × String)
  iterationStrategies : List (String × List Strategy)
deriving DecidableEq

/-- Outcome of spawning one external process: normal exit with an exit
code and captured stdout/stderr, or a failure to start the process
(`subprocess.run` raising e.g. `FileNotFoundError`). -/
inductive ExecOutcome where
  | exited : Nat → String → String → ExecOutcome
  | launchFailure : String → ExecOutcome
deriving DecidableEq

/-- Check semantics of `subprocess.run(..., check=True)`: it returns normally exactly on exit
status 0; a non-zero status raises `CalledProcessError` and a launch
failure raises another exception, both caught and mapped to `False`. -/
def ExecOutcome.success : ExecOutcome → Bool
  | .exited 0 _ _ => true
  | _ => false

/-- One recorded call to `subprocess.run`: the raw command string, the
working directory passed as `cwd`, and the `description` argument. -/
structure Invocation where
  command : String
  cwd : String
  description : String
deriving DecidableEq

/-- Since the code calls `subprocess.run(command.split(), ...)`, the argument vector actually
executed is the whitespace-split token list of the command string; no
shell is involved, so the program is the head token and shell operators
are passed through as literal argument tokens. -/
def execArgv (inv : Invocation) : List String := pySplit inv.command

/-- Observable behaviour of a run: the ordered process invocations and
the ordered console `print` calls. -/
structure Trace where
  invs : List Invocation
  lines : List String
deriving DecidableEq

def addLine (t : Trace) (l : String) : Trace := ⟨t.invs, t.lines ++ [l]⟩

def addLines (t : Trace) (ls : List String) : Trace := ⟨t.invs, t.lines ++ ls⟩

/-- Embedding of `ComponentBuilder.run_command`: print the progress line and the
command line, spawn the process (outcome given by `env` at the current
invocation count), then on success print the (stripped) stdout if
non-empty, on `CalledProcessError` print the failure line and captured
stderr, on any other exception print the error line and its message.
Returns the success flag and the extended trace. -/
def runCommandT (env : Nat → ExecOutcome) (t : Trace)
    (command cwd description : String) : Bool × Trace :=
  let oc := env t.invs.length
  let pre := ["🔨 " ++ description, "   Command: " ++ command]
  let post :=
    match oc with
    | .exited 0 out _ =>
        if out ≠ "" then ["   Output: " ++ pyStrip out] else []
    | .exited (_ + 1) _ err =>
        ["❌ Failed: " ++ description, "   Error: " ++ err]
    | .launchFailure msg =>
        ["❌ Error: " ++ description, "   Exception: " ++ msg]
  (oc.success, ⟨t.invs ++ [⟨command, cwd, description⟩], t.lines ++ pre ++ post⟩)

/-- Working directory for a generic build or test step:
`self.base_path / component_name if "cd" in step["command"] else self.base_path`. -/
def stepCwd (m : Manifest) (name command : String) : String :=
  if containsSub "cd" command then pathJoin m.basePath name else m.basePath

/-- Invocation a generic build or test step gives rise to: its command,
the working directory from `stepCwd`, and
`step.get("description", step["name"])` as description. -/
def stepInv (m : Manifest) (name : String) (s : Step) : Invocation :=
  ⟨s.command, stepCwd m name s.command, s.description.getD s.name⟩

/-- Run a list of generic steps in order, short-circuiting at the first
failure, as in the two `for step in ...` loops of `build_component`. -/
def runSteps (m : Manifest) (env : Nat → ExecOutcome) (name : String) :
    List Step → Trace → Bool × Trace
  | [], t => (true, t)
  | s :: rest, t =>
    let r := runCommandT env t s.command (stepCwd m name s.command)
      (s.description.getD s.name)
    if r.1 then runSteps m env name rest r.2 else (false, r.2)

/-- Dependency tokens the code slices out of one `add-dependencies`
step: remove the `"cd <name> && "` prefix text, whitespace-split, and if
`"add"` occurs among the tokens take everything after the first two. -/
def depTokens (name : String) (s : Step) : List String :=
  let parts := pySplit (pyReplace s.command ("cd " ++ name ++ " && ") "")
  if parts.contains "add" then parts.drop 2 else []

/-- Aggregate dependency list: concatenation of `depTokens` over every
step named `add-dependencies`, in declared order (the `deps.extend`
loop). -/
def collectDeps (name : String) (steps : List Step) : List String :=
  steps.foldl
    (fun acc s => if s.name = "add-dependencies" then acc ++ depTokens name s else acc)
    []

/-- The synthesized aggregate dependency-installation command
joining the collected dependency tokens with single spaces after the
fixed cd-and-cargo-add text. -/
def depCmd (name : String) (deps : List String) : String :=
  "cd " ++ name ++ " && cargo add " ++ joinSpace deps

/-- Scaffolding action of `build_component`: run
the command built from the literal cargo-new text and the component name in `base_path`, unconditionally,
before anything else. -/
def scaffoldPhase (m : Manifest) (env : Nat → ExecOutcome) (name : String)
    (t : Trace) : Bool × Trace :=
  runCommandT env t ("cargo new " ++ name ++ " --lib") m.basePath
    ("Create crate structure for " ++ name)

def scaffoldInv (m : Manifest) (name : String) : Invocation :=
  ⟨"cargo new " ++ name ++ " --lib", m.basePath, "Create crate structure for " ++ name⟩

/-- Dependency action of `build_component`: when some build step is
named `add-dependencies`, collect the dependency tokens and, when that
list is non-empty, run the single aggregate command in `base_path`. -/
def depPhase (m : Manifest) (env : Nat → ExecOutcome) (name : String)
    (comp : Component) (t : Trace) : Bool × Trace :=
  if comp.buildSteps.any (fun s => s.name == "add-dependencies") then
    let deps := collectDeps name comp.buildSteps
    if deps.isEmpty then (true, t)
    else
      runCommandT env t (depCmd name deps) m.basePath
        ("Add dependencies for " ++ name)
  else (true, t)

/-- Build steps that are not one of the two privileged names
`create-crate-structure` and `add-dependencies`; the generic loop of
`build_component` runs exactly these. -/
def genericSteps (steps : List Step) : List Step :=
  steps.filter
    (fun s => s.name != "create-crate-structure" && s.name != "add-dependencies")

/-- Generic-build-step loop of `build_component`. -/
def buildPhase (m : Manifest) (env : Nat → ExecOutcome) (name : String)
    (comp : Component) (t : Trace) : Bool × Trace :=
  runSteps m env name (genericSteps comp.buildSteps) t

/-- Test-step loop of `build_component`. -/
def testPhase (m : Manifest) (env : Nat → ExecOutcome) (name : String)
    (comp : Component) (t : Trace) : Bool × Trace :=
  runSteps m env name comp.testSteps t

/-- The two header lines printed on entering `build_component` for a
known component. -/
def componentHeader (name : String) (comp : Component) : List String :=
  ["\n🏗️  Building component: " ++ name, "   Description: " ++ comp.description]

/-- Embedding of `ComponentBuilder.build_component`: unknown components
fail at once; otherwise scaffold, dependencies, generic build steps and
test steps run in that order, each phase aborting the component with
failure as soon as one invocation fails. -/
def build_component (m : Manifest) (env : Nat → ExecOutcome) (name : String)
    (t : Trace) : Bool × Trace :=
  match m.components.lookup name with
  | none => (false, addLine t ("❌ Unknown component: " ++ name))
  | some comp =>
    let t1 := addLines t (componentHeader name comp)
    let r0 := scaffoldPhase m env name t1
    if r0.1 then
      let r1 := depPhase m env name comp r0.2
      if r1.1 then
        let r2 := buildPhase m env name comp r1.2
        if r2.1 then
          let r3 := testPhase m env name comp r2.2
          if r3.1 then
            (true, addLine r3.2 ("✅ Successfully built component: " ++ name))
          else (false, r3.2)
        else (false, r2.2)
      else (false, r1.2)
    else (false, r0.2)

/-- The loop body of `build_all_components` over a list of component
names: build each in turn, stopping with failure as soon as one fails. -/
def buildAllFrom (m : Manifest) (env : Nat → ExecOutcome) :
    List String → Trace → Bool × Trace
  | [], t => (true, addLine t "🎉 All components built successfully!")
  | n :: rest, t =>
    let r := build_component m env n t
    if r.1 then buildAllFrom m env rest r.2
    else (false, addLine r.2 ("❌ Failed to build " ++ n))

/-- Embedding of `ComponentBuilder.build_all_components`: the code reads
`self.manifest["buildOrder"]`, so an absent key raises `KeyError` (the
`Except.error` case); otherwise the components are built in declared
order with short-circuiting. -/
def build_all_components (m : Manifest) (env : Nat → ExecOutcome) (t : Trace) :
    Except String (Bool × Trace) :=
  match m.buildOrder with
  | none => .error "KeyError: buildOrder"
  | some order =>
    .ok (buildAllFrom m env order (addLine t "🚀 Starting full build process..."))

/-- Whether all of the next `n` process spawns, starting at invocation
index `base`, succeed. -/
def allOk (env : Nat → ExecOutcome) : Nat → Nat → Bool
  | _, 0 => true
  | base, n + 1 => (env base).success && allOk env (base + 1) n

/-- Number of steps a short-circuiting loop over `n` steps actually
runs, when spawns are numbered from `base`: every step up to and
including the first failing one. -/
def runCount (env : Nat → ExecOutcome) : Nat → Nat → Nat
  | _, 0 => 0
  | base, n + 1 => if (env base).success then runCount env (base + 1) n + 1 else 1

/-- Observable per-component outcome sequence of a full run: the names
`build_all_components` actually attempts, in order, each paired with its
`build_component` result, recomputed with the same trace threading. -/
def componentOutcomes (m : Manifest) (env : Nat → ExecOutcome) :
    List String → Trace → List (String × Bool)
  | [], _ => []
  | n :: rest, t =>
    let r := build_component m env n t
    if r.1 then (n, true) :: componentOutcomes m env rest r.2
    else [(n, false)]

/-- Embedding of `ComponentBuilder.list_variants`: purely prints; it
never calls `run_command`, so the invocation list is untouched. -/
def list_variants (m : Manifest) (name? : Option String) (t : Trace) : Trace :=
  match name? with
  | some name =>
    match m.components.lookup name with
    | some comp =>
      addLines t (("\n🔧 Variants for " ++ name ++ ":") ::
        (comp.variants.getD []).map (fun p => "   • " ++ p.1 ++ ": " ++ p.2))
    | none => addLine t ("❌ Unknown component: " ++ name)
  | none =>
    addLines t ("\n🔧 Available component variants:" ::
      m.components.flatMap (fun p =>
        match p.2.variants with
        | none => []
        | some vs =>
          ("\n📦 " ++ p.1 ++ ":") ::
            vs.map (fun v => "   • " ++ v.1 ++ ": " ++ v.2)))

/-- Embedding of `ComponentBuilder.show_iteration_strategies`. -/
def show_iteration_strategies (m : Manifest) (t : Trace) : Trace :=
  addLines t ("\n🔄 Available iteration strategies:" ::
    m.iterationStrategies.flatMap (fun p =>
      ("\n📋 " ++ p.1 ++ ":") ::
        p.2.map (fun s => "   • " ++ s.name ++ ": " ++ s.description)))

/-- Invocation one quality check gives rise to: the command, `base_path`
as working directory, and the `Quality check: <name>` description. -/
def checkInv (m : Manifest) (p : String × String) : Invocation :=
  ⟨p.2, m.basePath, "Quality check: " ++ p.1⟩

/-- The loop of `run_quality_checks` over the quality-check mapping, in
mapping order, short-circuiting at the first failing check. -/
def runChecks (m : Manifest) (env : Nat → ExecOutcome) :
    List (String × String) → Trace → Bool × Trace
  | [], t => (true, addLine t "✅ All quality checks passed!")
  | (n, cmd) :: rest, t =>
    let r := runCommandT env t cmd m.basePath ("Quality check: " ++ n)
    if r.1 then runChecks m env rest r.2 else (false, r.2)

/-- Embedding of `ComponentBuilder.run_quality_checks`. -/
def run_quality_checks (m : Manifest) (env : Nat → ExecOutcome) (t : Trace) :
    Bool × Trace :=
  runChecks m env m.qualityChecks (addLine t "\n🔍 Running quality checks...")

def usageLines : List String :=
  ["Usage: python build.py [command]",
   "Commands:",
   "  build [component]    - Build specific component or all components",
   "  list-variants [component] - List variants for component(s)",
   "  show-strategies      - Show iteration strategies",
   "  quality-check        - Run quality checks",
   "  help                 - Show this help"]

def helpLines : List String :=
  ["Parseltongue Component Builder",
   "=============================",
   "Build system for modular Parseltongue components",
   "",
   "This tool uses build-manifest.json to:",
   "• Build components in dependency order",
   "• Support multiple variants per component",
   "• Enable fast iteration on different approaches",
   "• Run quality checks and tests",
   "",
   "Examples:",
   "  python build.py build                    # Build all components",
   "  python build.py build system-detective   # Build specific component",
   "  python build.py list-variants           # Show all variants",
   "  python build.py show-strategies         # Show iteration strategies"]

/-- Embedding of `main`: `args` is `sys.argv[1:]`. The first result is
the argument passed to `sys.exit` when one is reached (`none` when `main`
returns without calling `sys.exit`, in which case the process exits 0);
an unhandled `KeyError` from an absent `buildOrder` also ends the process
with exit status 1. The second result is the trace of the run. -/
def mainRun (m : Manifest) (env : Nat → ExecOutcome) (args : List String) :
    Option Nat × Trace :=
  match args with
  | [] => (none, addLines ⟨[], []⟩ usageLines)
  | cmd :: rest =>
    if cmd = "build" then
      match rest.head? with
      | some comp =>
        let r := build_component m env comp ⟨[], []⟩
        (some (if r.1 then 0 else 1), r.2)
      | none =>
        match build_all_components m env ⟨[], []⟩ with
        | .ok r => (some (if r.1 then 0 else 1), r.2)
        | .error _ => (some 1, addLine ⟨[], []⟩ "🚀 Starting full build process...")
    else if cmd = "list-variants" then
      (none, list_variants m rest.head? ⟨[], []⟩)
    else if cmd = "show-strategies" then
      (none, show_iteration_strategies m ⟨[], []⟩)
    else if cmd = "quality-check" then
      let r := run_quality_checks m env ⟨[], []⟩
      (some (if r.1 then 0 else 1), r.2)
    else if cmd = "help" then
      (none, addLines ⟨[], []⟩ helpLines)
    else
      (some 1, addLines ⟨[], []⟩
        ["❌ Unknown command: " ++ cmd,
         "Use \x27python build.py help\x27 for usage information"])

/-! Concrete inputs used to instantiate the general theorems. -/

/-- Environment where every process exits 0 with empty output. -/
def envAllOk : Nat → ExecOutcome := fun _ => .exited 0 "" ""

/-- Environment where every process exits 1 with stdout and stderr text. -/
def envFailOut : Nat → ExecOutcome := fun _ => .exited 1 "hello" "boom"

/-- Environment where every process fails to launch. -/
def envLaunch : Nat → ExecOutcome := fun _ => .launchFailure "no such file"

/-- Environment where exactly the second process (index 1) exits non-zero. -/
def envSecondFails : Nat → ExecOutcome :=
  fun n => if n == 1 then .exited 2 "" "bad" else .exited 0 "" ""

/-- Component with a single dependency-adding build step. -/
def compA : Component :=
  ⟨"demo", [⟨"add-dependencies", "cd alpha && cargo add serde", none⟩], [], none⟩

/-- Manifest declaring the single component of `compA`. -/
def m3 : Manifest := ⟨"/b", "/o", some ["alpha"], [("alpha", compA)], [], []⟩

/-- Component with no steps at all. -/
def compB : Component := ⟨"noop", [], [], none⟩

/-- Specification-side reading of one dependency step: the argument
tokens that follow the first occurrence of the dependency-add subcommand
token in the whitespace-split command template. -/
def tokensAfterAdd : List String → List String
  | [] => []
  | x :: rest => if x = "add" then rest else tokensAfterAdd rest

/-- Specification-side reading of the aggregate argument list: the
concatenation, over every step named `add-dependencies` in declared
order, of the tokens following the dependency-add subcommand in that
step. Compared against `collectDeps`, which is what the code computes. -/
def specDepArgs (steps : List Step) : List String :=
  (steps.filter (fun s => s.name == "add-dependencies")).flatMap
    (fun s => tokensAfterAdd (pySplit s.command))

/-- Component whose dependency step carries no argument tokens after the
dependency-add subcommand, so the code extracts an empty list. -/
def compG : Component :=
  ⟨"empty extraction", [⟨"add-dependencies", "cd gamma && cargo add", none⟩], [], none⟩

/-- Manifest declaring the single component of `compG`. -/
def mG : Manifest := ⟨"/b", "/o", some ["gamma"], [("gamma", compG)], [], []⟩

/-- Component whose dependency step names a different directory in its
cd text, so the fixed-prefix removal of the code does not fire. -/
def compD : Component :=
  ⟨"dep step naming another dir",
   [⟨"add-dependencies", "cd beta && cargo add serde", none⟩], [], none⟩

/-- Manifest declaring the single component of `compD`. -/
def mD : Manifest := ⟨"/b", "/o", some ["delta"], [("delta", compD)], [], []⟩

/-- Manifest with two trivial components in its build order. -/
def mW : Manifest :=
  ⟨"/b", "/o", some ["a", "b"], [("a", compB), ("b", compB)], [], []⟩

/-- Component with two generic build steps and one test step. -/
def compC2 : Component :=
  ⟨"two-step",
   [⟨"build-one", "cargo build", none⟩, ⟨"build-two", "cargo build --release", none⟩],
   [⟨"test-one", "cd c && cargo test", some "run tests"⟩], none⟩

/-- Manifest declaring the component of `compC2` under the name `c`. -/
def mC2 : Manifest := ⟨"/b", "/o", some ["c"], [("c", compC2)], [], []⟩

/-- Trace after the (successful) scaffolding action of `mC2`-component `c`
under `envSecondFails`. -/
def t2c : Trace :=
  (scaffoldPhase mC2 envSecondFails "c" (addLines ⟨[], []⟩ (componentHeader "c" compC2))).2

/-- Trace after the scaffolding action of `m3`-component `alpha` under
`envSecondFails`. -/
def t2a : Trace :=
  (scaffoldPhase m3 envSecondFails "alpha" (addLines ⟨[], []⟩ (componentHeader "alpha" compA))).2

/-- Manifest with an absent `buildOrder` key. -/
def mNone : Manifest := ⟨"/b", "/o", none, [], [], []⟩

/-- Manifest with a present but empty `buildOrder`. -/
def mEmpty : Manifest := ⟨"/b", "/o", some [], [], [], []⟩

/-- Manifest with three quality checks and nothing else. -/
def mQ : Manifest :=
  ⟨"/b", "/o", some [], [],
   [("fmt", "cargo fmt"), ("clippy", "cargo clippy"), ("test", "cargo test")], []⟩

/-- Manifest whose only component is named `x`. -/
def mU : Manifest := ⟨"/b", "/o", some [], [("x", compB)], [], []⟩

/-! Basic facts about the command runner and the step loops. -/

theorem runCommandT_fst (env : Nat → ExecOutcome) (t : Trace) (c w d : String) :
    (runCommandT env t c w d).1 = (env t.invs.length).success := rfl

theorem runCommandT_invs (env : Nat → ExecOutcome) (t : Trace) (c w d : String) :
    (runCommandT env t c w d).2.invs = t.invs ++ [⟨c, w, d⟩] := rfl

theorem runCommandT_invs_length (env : Nat → ExecOutcome) (t : Trace) (c w d : String) :
    (runCommandT env t c w d).2.invs.length = t.invs.length + 1 := by
  rw [runCommandT_invs]; simp

theorem runSteps_fst (m : Manifest) (env : Nat → ExecOutcome) (name : String) :
    ∀ (steps : List Step) (t : Trace),
      (runSteps m env name steps t).1 = allOk env t.invs.length steps.length
  | [], _ => rfl
  | s :: rest, t => by
    simp only [runSteps, List.length_cons, allOk]
    rw [runCommandT_fst]
    cases h : (env t.invs.length).success with
    | false => simp
    | true =>
      simp only [if_true, Bool.true_and]
      rw [runSteps_fst m env name rest _, runCommandT_invs_length]

theorem runSteps_invs (m : Manifest) (env : Nat → ExecOutcome) (name : String) :
    ∀ (steps : List Step) (t : Trace),
      (runSteps m env name steps t).2.invs =
        t.invs ++ ((steps.take (runCount env t.invs.length steps.length)).map (stepInv m name))
  | [], t => by simp [runSteps, runCount]
  | s :: rest, t => by
    simp only [runSteps, List.length_cons, runCount]
    rw [runCommandT_fst]
    cases h : (env t.invs.length).success with
    | false =>
      simp only [Bool.false_eq_true, if_false, List.take_succ_cons, List.take_zero,
        List.map_cons, List.map_nil]
      rw [runCommandT_invs]
      rfl
    | true =>
      simp only [if_true, List.take_succ_cons, List.map_cons]
      rw [runSteps_invs m env name rest _, runCommandT_invs_length, runCommandT_invs]
      simp [stepInv]

theorem runCount_le (env : Nat → ExecOutcome) :
    ∀ (n base : Nat), runCount env base n ≤ n
  | 0, _ => Nat.le_refl 0
  | n + 1, base => by
    simp only [runCount]
    cases (env base).success with
    | false => simp
    | true => simpa using runCount_le env n (base + 1)

theorem runCount_firstFail (env : Nat → ExecOutcome) :
    ∀ (n base j : Nat), j < n →
      (∀ i, i < j → (env (base + i)).success = true) →
      (env (base + j)).success = false →
      runCount env base n = j + 1
  | 0, _, j, hj, _, _ => absurd hj (Nat.not_lt_zero j)
  | n + 1, base, 0, _, _, hf => by
    simp only [runCount]
    rw [show base + 0 = base from rfl] at hf
    simp [hf]
  | n + 1, base, j + 1, hj, hok, hf => by
    have h0 : (env base).success = true := by
      have := hok 0 (Nat.succ_pos j)
      simpa using this
    simp only [runCount, h0, if_true]
    have hrec : runCount env (base + 1) n = j + 1 := by
      apply runCount_firstFail env n (base + 1) j (Nat.lt_of_succ_lt_succ hj)
      · intro i hi
        have := hok (i + 1) (Nat.succ_lt_succ hi)
        rwa [show base + (i + 1) = base + 1 + i by omega] at this
      · rwa [show base + (j + 1) = base + 1 + j by omega] at hf
    rw [hrec]

theorem allOk_false_exists (env : Nat → ExecOutcome) :
    ∀ (n base : Nat), allOk env base n = false →
      ∃ k, k < n ∧ (∀ j, j < k → (env (base + j)).success = true) ∧
        (env (base + k)).success = false ∧ runCount env base n = k + 1
  | 0, _, h => by simp [allOk] at h
  | n + 1, base, h => by
    cases h0 : (env base).success with
    | false =>
      refine ⟨0, Nat.succ_pos n, fun j hj => absurd hj (Nat.not_lt_zero j), ?_, ?_⟩
      · simpa using h0
      · simp [runCount, h0]
    | true =>
      have htail : allOk env (base + 1) n = false := by
        simp only [allOk, h0, Bool.true_and] at h
        exact h
      obtain ⟨k, hk, hok, hf, hrc⟩ := allOk_false_exists env n (base + 1) htail
      refine ⟨k + 1, Nat.succ_lt_succ hk, ?_, ?_, ?_⟩
      · intro j hj
        cases j with
        | zero => simpa using h0
        | succ i =>
          have := hok i (Nat.lt_of_succ_lt_succ hj)
          rwa [show base + 1 + i = base + (i + 1) by omega] at this
      · rwa [show base + 1 + k = base + (k + 1) by omega] at hf
      · simp [runCount, h0, hrc]

theorem allOk_true_runCount (env : Nat → ExecOutcome) :
    ∀ (n base : Nat), allOk env base n = true → runCount env base n = n
  | 0, _, _ => rfl
  | n + 1, base, h => by
    have h0 : (env base).success = true := by
      simp only [allOk, Bool.and_eq_true] at h
      exact h.1
    have htail : allOk env (base + 1) n = true := by
      simp only [allOk, Bool.and_eq_true] at h
      exact h.2
    simp [runCount, h0, allOk_true_runCount env n (base + 1) htail]

theorem runChecks_fst (m : Manifest) (env : Nat → ExecOutcome) :
    ∀ (checks : List (String × String)) (t : Trace),
      (runChecks m env checks t).1 = allOk env t.invs.length checks.length
  | [], _ => rfl
  | (n, cmd) :: rest, t => by
    simp only [runChecks, List.length_cons, allOk]
    rw [runCommandT_fst]
    cases h : (env t.invs.length).success with
    | false => simp
    | true =>
      simp only [if_true, Bool.true_and]
      rw [runChecks_fst m env rest _, runCommandT_invs_length]

theorem runChecks_invs (m : Manifest) (env : Nat → ExecOutcome) :
    ∀ (checks : List (String × String)) (t : Trace),
      (runChecks m env checks t).2.invs =
        t.invs ++ ((checks.take (runCount env t.invs.length checks.length)).map (checkInv m))
  | [], t => by simp [runChecks, runCount, addLine]
  | (n, cmd) :: rest, t => by
    simp only [runChecks, List.length_cons, runCount]
    rw [runCommandT_fst]
    cases h : (env t.invs.length).success with
    | false =>
      simp only [Bool.false_eq_true, if_false, List.take_succ_cons, List.take_zero,
        List.map_cons, List.map_nil]
      rw [runCommandT_invs]
      rfl
    | true =>
      simp only [if_true, List.take_succ_cons, List.map_cons]
      rw [runChecks_invs m env rest _, runCommandT_invs_length, runCommandT_invs]
      simp [checkInv]

/-! Facts about the full-run orchestrator. -/

theorem buildAllFrom_fst (m : Manifest) (env : Nat → ExecOutcome) :
    ∀ (names : List String) (t : Trace),
      (buildAllFrom m env names t).1 =
        (componentOutcomes m env names t).all (fun p => p.2)
  | [], t => by simp [buildAllFrom, componentOutcomes]
  | n :: rest, t => by
    simp only [buildAllFrom, componentOutcomes]
    cases h : (build_component m env n t).1 with
    | false => simp [h]
    | true => simp [h, buildAllFrom_fst m env rest _]

theorem componentOutcomes_names (m : Manifest) (env : Nat → ExecOutcome) :
    ∀ (names : List String) (t : Trace),
      (componentOutcomes m env names t).map Prod.fst =
        names.take (componentOutcomes m env names t).length
  | [], t => by simp [componentOutcomes]
  | n :: rest, t => by
    simp only [componentOutcomes]
    cases h : (build_component m env n t).1 with
    | false => simp [h]
    | true =>
      simp only [Bool.true_eq_false, if_true, List.map_cons, List.length_cons,
        List.take_succ_cons]
      rw [componentOutcomes_names m env rest _]

theorem componentOutcomes_failLast (m : Manifest) (env : Nat → ExecOutcome) :
    ∀ (names : List String) (t : Trace) (i : Nat)
      (hi : i < (componentOutcomes m env names t).length),
      ((componentOutcomes m env names t).get ⟨i, hi⟩).2 = false →
      (componentOutcomes m env names t).length = i + 1
  | [], t, i, hi, _ => by simp [componentOutcomes] at hi
  | n :: rest, t, i, hi, hfail => by
    revert hi hfail
    simp only [componentOutcomes]
    cases h : (build_component m env n t).1 with
    | false =>
      intro hi hfail
      simp only [Bool.false_eq_true, if_false, List.length_singleton] at hi ⊢
      omega
    | true =>
      cases i with
      | zero =>
        intro hi hfail
        simp at hfail
      | succ i =>
        intro hi hfail
        simp only [if_true, List.length_cons] at hi ⊢
        have hi' : i < (componentOutcomes m env rest (build_component m env n t).2).length :=
          Nat.lt_of_succ_lt_succ hi
        have := componentOutcomes_failLast m env rest (build_component m env n t).2 i hi' ?_
        · omega
        · simpa using hfail

/-! Facts about the phases of the component executor. -/

theorem addLines_invs (t : Trace) (ls : List String) : (addLines t ls).invs = t.invs := rfl

theorem addLine_invs (t : Trace) (l : String) : (addLine t l).invs = t.invs := rfl

theorem scaffoldPhase_invs (m : Manifest) (env : Nat → ExecOutcome) (name : String)
    (t : Trace) :
    (scaffoldPhase m env name t).2.invs = t.invs ++ [scaffoldInv m name] := rfl

theorem scaffoldPhase_fst (m : Manifest) (env : Nat → ExecOutcome) (name : String)
    (t : Trace) :
    (scaffoldPhase m env name t).1 = (env t.invs.length).success := rfl

theorem depPhase_invs_ext (m : Manifest) (env : Nat → ExecOutcome) (name : String)
    (comp : Component) (t : Trace) :
    ∃ l, (depPhase m env name comp t).2.invs = t.invs ++ l := by
  unfold depPhase
  cases comp.buildSteps.any (fun s => s.name == "add-dependencies") with
  | false => exact ⟨[], by simp⟩
  | true =>
    simp only [if_true]
    cases (collectDeps name comp.buildSteps).isEmpty with
    | true => exact ⟨[], by simp⟩
    | false =>
      simp only [Bool.false_eq_true, if_false]
      exact ⟨_, runCommandT_invs env t _ _ _⟩

theorem runSteps_invs_ext (m : Manifest) (env : Nat → ExecOutcome) (name : String)
    (steps : List Step) (t : Trace) :
    ∃ l, (runSteps m env name steps t).2.invs = t.invs ++ l :=
  ⟨_, runSteps_invs m env name steps t⟩

theorem bc_unknown (m : Manifest) (env : Nat → ExecOutcome) (name : String) (t : Trace)
    (hc : m.components.lookup name = none) :
    build_component m env name t = (false, addLine t ("❌ Unknown component: " ++ name)) := by
  unfold build_component
  rw [hc]

theorem bc_scaffold_fail (m : Manifest) (env : Nat → ExecOutcome) (name : String)
    (comp : Component) (t : Trace)
    (hc : m.components.lookup name = some comp)
    (h0 : (scaffoldPhase m env name (addLines t (componentHeader name comp))).1 = false) :
    build_component m env name t =
      (false, (scaffoldPhase m env name (addLines t (componentHeader name comp))).2) := by
  unfold build_component
  rw [hc]
  simp only [h0, Bool.false_eq_true, if_false]

theorem bc_dep_fail (m : Manifest) (env : Nat → ExecOutcome) (name : String)
    (comp : Component) (t t2 : Trace)
    (hc : m.components.lookup name = some comp)
    (h0 : scaffoldPhase m env name (addLines t (componentHeader name comp)) = (true, t2))
    (h1 : (depPhase m env name comp t2).1 = false) :
    build_component m env name t = (false, (depPhase m env name comp t2).2) := by
  unfold build_component
  rw [hc]
  simp only [h0, if_true, h1, Bool.false_eq_true, if_false]

theorem bc_build_fail (m : Manifest) (env : Nat → ExecOutcome) (name : String)
    (comp : Component) (t t2 t3 : Trace)
    (hc : m.components.lookup name = some comp)
    (h0 : scaffoldPhase m env name (addLines t (componentHeader name comp)) = (true, t2))
    (h1 : depPhase m env name comp t2 = (true, t3))
    (h2 : (buildPhase m env name comp t3).1 = false) :
    build_component m env name t = (false, (buildPhase m env name comp t3).2) := by
  unfold build_component
  rw [hc]
  simp only [h0, if_true, h1, h2, Bool.false_eq_true, if_false]

theorem bc_build_ok (m : Manifest) (env : Nat → ExecOutcome) (name : String)
    (comp : Component) (t t2 t3 t4 : Trace)
    (hc : m.components.lookup name = some comp)
    (h0 : scaffoldPhase m env name (addLines t (componentHeader name comp)) = (true, t2))
    (h1 : depPhase m env name comp t2 = (true, t3))
    (h2 : buildPhase m env name comp t3 = (true, t4)) :
    build_component m env name t =
      (if (testPhase m env name comp t4).1 then
        (true, addLine (testPhase m env name comp t4).2
          ("✅ Successfully built component: " ++ name))
      else (false, (testPhase m env name comp t4).2)) := by
  unfold build_component
  rw [hc]
  simp only [h0, if_true, h1, h2]

theorem bc_first_inv (m : Manifest) (env : Nat → ExecOutcome) (name : String)
    (comp : Component) (t : Trace)
    (hc : m.components.lookup name = some comp) :
    ∃ rest, (build_component m env name t).2.invs =
      t.invs ++ (scaffoldInv m name :: rest) := by
  cases h0 : (scaffoldPhase m env name (addLines t (componentHeader name comp))).1 with
  | false =>
    rw [bc_scaffold_fail m env name comp t hc h0, scaffoldPhase_invs, addLines_invs]
    exact ⟨[], rfl⟩
  | true =>
    have hs : scaffoldPhase m env name (addLines t (componentHeader name comp)) =
        (true, (scaffoldPhase m env name (addLines t (componentHeader name comp))).2) := by
      rw [← h0]
    have hinv2 : (scaffoldPhase m env name (addLines t (componentHeader name comp))).2.invs =
        t.invs ++ [scaffoldInv m name] := by
      rw [scaffoldPhase_invs, addLines_invs]
    obtain ⟨l1, hl1⟩ := depPhase_invs_ext m env name comp
      (scaffoldPhase m env name (addLines t (componentHeader name comp))).2
    cases h1 : (depPhase m env name comp
        (scaffoldPhase m env name (addLines t (componentHeader name comp))).2).1 with
    | false =>
      rw [bc_dep_fail m env name comp t _ hc hs h1, hl1, hinv2]
      exact ⟨l1, by simp⟩
    | true =>
      have hd : depPhase m env name comp
          (scaffoldPhase m env name (addLines t (componentHeader name comp))).2 =
          (true, (depPhase m env name comp
            (scaffoldPhase m env name (addLines t (componentHeader name comp))).2).2) := by
        rw [← h1]
      obtain ⟨l2, hl2⟩ := runSteps_invs_ext m env name (genericSteps comp.buildSteps)
        (depPhase m env name comp
          (scaffoldPhase m env name (addLines t (componentHeader name comp))).2).2
      cases h2 : (buildPhase m env name comp
          (depPhase m env name comp
            (scaffoldPhase m env name (addLines t (componentHeader name comp))).2).2).1 with
      | false =>
        rw [bc_build_fail m env name comp t _ _ hc hs hd h2]
        refine ⟨l1 ++ l2, ?_⟩
        show (buildPhase m env name comp _).2.invs = _
        rw [show buildPhase m env name comp
            (depPhase m env name comp
              (scaffoldPhase m env name (addLines t (componentHeader name comp))).2).2 =
            runSteps m env name (genericSteps comp.buildSteps)
              (depPhase m env name comp
                (scaffoldPhase m env name (addLines t (componentHeader name comp))).2).2
          from rfl, hl2, hl1, hinv2]
        simp
      | true =>
        have hb : buildPhase m env name comp
            (depPhase m env name comp
              (scaffoldPhase m env name (addLines t (componentHeader name comp))).2).2 =
            (true, (buildPhase m env name comp
              (depPhase m env name comp
                (scaffoldPhase m env name (addLines t (componentHeader name comp))).2).2).2) := by
          rw [← h2]
        obtain ⟨l3, hl3⟩ := runSteps_invs_ext m env name comp.testSteps
          (buildPhase m env name comp
            (depPhase m env name comp
              (scaffoldPhase m env name (addLines t (componentHeader name comp))).2).2).2
        rw [bc_build_ok m env name comp t _ _ _ hc hs hd hb]
        cases h3 : (testPhase m env name comp
            (buildPhase m env name comp
              (depPhase m env name comp
                (scaffoldPhase m env name (addLines t (componentHeader name comp))).2).2).2).1 with
        | false =>
          refine ⟨l1 ++ l2 ++ l3, ?_⟩
          simp only [h3, Bool.false_eq_true, if_false]
          show (testPhase m env name comp _).2.invs = _
          rw [show (testPhase m env name comp
              (buildPhase m env name comp
                (depPhase m env name comp
                  (scaffoldPhase m env name (addLines t (componentHeader name comp))).2).2).2) =
              runSteps m env name comp.testSteps
                (buildPhase m env name comp
                  (depPhase m env name comp
                    (scaffoldPhase m env name (addLines t (componentHeader name comp))).2).2).2
            from rfl, hl3]
          show (buildPhase m env name comp _).2.invs ++ l3 = _
          rw [show buildPhase m env name comp
              (depPhase m env name comp
                (scaffoldPhase m env name (addLines t (componentHeader name comp))).2).2 =
              runSteps m env name (genericSteps comp.buildSteps)
                (depPhase m env name comp
                  (scaffoldPhase m env name (addLines t (componentHeader name comp))).2).2
            from rfl, hl2, hl1, hinv2]
          simp
        | true =>
          refine ⟨l1 ++ l2 ++ l3, ?_⟩
          simp only [h3, if_true, addLine_invs]
          show (testPhase m env name comp _).2.invs = _
          rw [show (testPhase m env name comp
              (buildPhase m env name comp
                (depPhase m env name comp
                  (scaffoldPhase m env name (addLines t (componentHeader name comp))).2).2).2) =
              runSteps m env name comp.testSteps
                (buildPhase m env name comp
                  (depPhase m env name comp
                    (scaffoldPhase m env name (addLines t (componentHeader name comp))).2).2).2
            from rfl, hl3]
          show (buildPhase m env name comp _).2.invs ++ l3 = _
          rw [show buildPhase m env name comp
              (depPhase m env name comp
                (scaffoldPhase m env name (addLines t (componentHeader name comp))).2).2 =
              runSteps m env name (genericSteps comp.buildSteps)
                (depPhase m env name comp
                  (scaffoldPhase m env name (addLines t (componentHeader name comp))).2).2
            from rfl, hl2, hl1, hinv2]
          simp

/-! Claim theorems. -/

/-- C1: for every manifest with a declared build order and every full
run, the run reports success exactly when every component it attempted
succeeded, the attempted components are an initial segment of
`buildOrder` in declared order, and if the component at position `i`
fails then it is the last one attempted, so components at positions
`i+1..n` are never attempted and the run reports failure. -/
theorem full_run_short_circuits (m : Manifest) (env : Nat → ExecOutcome)
    (order : List String) (t : Trace) (h : m.buildOrder = some order) :
    build_all_components m env t =
      .ok ((componentOutcomes m env order (addLine t "🚀 Starting full build process...")).all
            (fun p => p.2),
          (buildAllFrom m env order (addLine t "🚀 Starting full build process...")).2)
    ∧ (componentOutcomes m env order (addLine t "🚀 Starting full build process...")).map Prod.fst
        = order.take
            (componentOutcomes m env order (addLine t "🚀 Starting full build process...")).length
    ∧ ∀ (i : Nat)
        (hi : i < (componentOutcomes m env order
          (addLine t "🚀 Starting full build process...")).length),
        ((componentOutcomes m env order
          (addLine t "🚀 Starting full build process...")).get ⟨i, hi⟩).2 = false →
        (componentOutcomes m env order
          (addLine t "🚀 Starting full build process...")).length = i + 1 := by
  refine ⟨?_, componentOutcomes_names m env order _, ?_⟩
  · unfold build_all_components
    rw [h, ← buildAllFrom_fst m env order (addLine t "🚀 Starting full build process...")]
  · intro i hi hfail
    exact componentOutcomes_failLast m env order _ i hi hfail

theorem full_run_short_circuits_witness :
    build_all_components mW envFailOut ⟨[], []⟩ =
      .ok ((componentOutcomes mW envFailOut ["a", "b"]
              (addLine ⟨[], []⟩ "🚀 Starting full build process...")).all (fun p => p.2),
           (buildAllFrom mW envFailOut ["a", "b"]
              (addLine ⟨[], []⟩ "🚀 Starting full build process...")).2) :=
  (full_run_short_circuits mW envFailOut ["a", "b"] ⟨[], []⟩ rfl).1

/-- C2: for every component reached past the scaffolding and dependency
actions, if the generic build step at position `k` fails then the earlier
generic steps all succeeded, the trace gains exactly the first `k+1`
generic-step invocations (so later build steps and all test steps are
never invoked) and the component reports failure; when every generic
build step succeeds, the test steps are run and decide the result. -/
theorem component_stops_at_failed_step (m : Manifest) (env : Nat → ExecOutcome)
    (name : String) (comp : Component) (t t2 t3 : Trace)
    (hc : m.components.lookup name = some comp)
    (hs : scaffoldPhase m env name (addLines t (componentHeader name comp)) = (true, t2))
    (hd : depPhase m env name comp t2 = (true, t3)) :
    ((buildPhase m env name comp t3).1 = false →
      build_component m env name t = (false, (buildPhase m env name comp t3).2) ∧
      ∃ k, k < (genericSteps comp.buildSteps).length ∧
        (∀ j, j < k → (env (t3.invs.length + j)).success = true) ∧
        (env (t3.invs.length + k)).success = false ∧
        (buildPhase m env name comp t3).2.invs =
          t3.invs ++ (((genericSteps comp.buildSteps).take (k + 1)).map (stepInv m name)))
    ∧ ((buildPhase m env name comp t3).1 = true →
      build_component m env name t =
        (if (testPhase m env name comp (buildPhase m env name comp t3).2).1 then
          (true, addLine (testPhase m env name comp (buildPhase m env name comp t3).2).2
            ("✅ Successfully built component: " ++ name))
        else (false, (testPhase m env name comp (buildPhase m env name comp t3).2).2))) := by
  constructor
  · intro hfail
    refine ⟨bc_build_fail m env name comp t t2 t3 hc hs hd hfail, ?_⟩
    have hallOk : allOk env t3.invs.length (genericSteps comp.buildSteps).length = false := by
      rw [← runSteps_fst m env name (genericSteps comp.buildSteps) t3]
      exact hfail
    obtain ⟨k, hk, hok, hf, hrc⟩ :=
      allOk_false_exists env (genericSteps comp.buildSteps).length t3.invs.length hallOk
    refine ⟨k, hk, hok, hf, ?_⟩
    have := runSteps_invs m env name (genericSteps comp.buildSteps) t3
    rw [hrc] at this
    exact this
  · intro htrue
    have hb : buildPhase m env name comp t3 = (true, (buildPhase m env name comp t3).2) := by
      rw [← htrue]
    exact bc_build_ok m env name comp t t2 t3 (buildPhase m env name comp t3).2 hc hs hd hb

theorem component_stops_at_failed_step_witness :
    build_component mC2 envSecondFails "c" ⟨[], []⟩ =
      (false, (buildPhase mC2 envSecondFails "c" compC2 t2c).2) :=
  ((component_stops_at_failed_step mC2 envSecondFails "c" compC2 ⟨[], []⟩ t2c t2c
    (by decide) (by decide) (by decide)).1 (by decide)).1

/-- C3 counterexample: three concrete components refuting the claim as
stated. For `alpha` of `m3` the synthesized aggregate dependency command
is run as the second invocation with working directory `basePath`
(`/b`), not inside the component subdirectory `/b/alpha`. For `gamma` of
`mG`, which declares an `add-dependencies` step whose extracted token
list is empty, no dependency-installation command is run at all (the
whole trace is the scaffolding invocation), refuting that the aggregate
command is always run once. For `delta` of `mD` the aggregate command
the code runs differs from the command built from the tokens following
the dependency-add subcommand of the matching step (`specDepArgs`),
refuting the claimed argument rule. -/
theorem dep_phase_claim_cx :
    (build_component m3 envAllOk "alpha" ⟨[], []⟩).2.invs[1]? =
      some ⟨"cd alpha && cargo add serde", "/b", "Add dependencies for alpha"⟩
    ∧ (build_component m3 envAllOk "alpha" ⟨[], []⟩).2.invs.length = 2
    ∧ ¬ ("/b" = pathJoin m3.basePath "alpha")
    ∧ compG.buildSteps.any (fun s => s.name == "add-dependencies") = true
    ∧ (build_component mG envAllOk "gamma" ⟨[], []⟩).2.invs = [scaffoldInv mG "gamma"]
    ∧ (build_component mD envAllOk "delta" ⟨[], []⟩).2.invs[1]? =
        some ⟨depCmd "delta" (collectDeps "delta" compD.buildSteps), "/b",
          "Add dependencies for delta"⟩
    ∧ ¬ (depCmd "delta" (collectDeps "delta" compD.buildSteps) =
        depCmd "delta" (specDepArgs compD.buildSteps)) := by
  refine ⟨by decide, by decide, by decide, by decide, by decide, by decide, by decide⟩

/-- C3 (amended): for every component declaring at least one build step
named `add-dependencies`, the code extracts from each matching step the
tokens remaining after deleting the cd-and-name text and dropping the
first two remaining tokens (provided the token `add` occurs among them),
concatenated in declared order; when that list is empty the dependency
action runs nothing, and when it is non-empty the dependency action is
exactly one invocation of the single aggregate command, run with working
directory `basePath` (the directory change lives only textually inside
the command string); if that run fails the component aborts with failure
at that point. -/
theorem dep_aggregate_command (m : Manifest) (env : Nat → ExecOutcome)
    (name : String) (comp : Component) (t t2 : Trace)
    (hc : m.components.lookup name = some comp)
    (hAny : comp.buildSteps.any (fun s => s.name == "add-dependencies") = true)
    (hs : scaffoldPhase m env name (addLines t (componentHeader name comp)) = (true, t2)) :
    (collectDeps name comp.buildSteps = [] → depPhase m env name comp t2 = (true, t2))
    ∧ (collectDeps name comp.buildSteps ≠ [] →
      depPhase m env name comp t2 =
        runCommandT env t2 (depCmd name (collectDeps name comp.buildSteps)) m.basePath
          ("Add dependencies for " ++ name)
      ∧ (depPhase m env name comp t2).2.invs =
          t2.invs ++ [⟨depCmd name (collectDeps name comp.buildSteps), m.basePath,
            "Add dependencies for " ++ name⟩]
      ∧ ((depPhase m env name comp t2).1 = false →
          build_component m env name t = (false, (depPhase m env name comp t2).2))) := by
  constructor
  · intro hE
    unfold depPhase
    rw [hAny]
    simp only [if_true, hE, List.isEmpty_nil]
  · intro hNe
    have hEmp : (collectDeps name comp.buildSteps).isEmpty = false := by
      rcases hl : collectDeps name comp.buildSteps with _ | ⟨a, l⟩
      · exact absurd hl hNe
      · rfl
    have h1 : depPhase m env name comp t2 =
        runCommandT env t2 (depCmd name (collectDeps name comp.buildSteps)) m.basePath
          ("Add dependencies for " ++ name) := by
      unfold depPhase
      rw [hAny]
      simp only [if_true, hEmp, Bool.false_eq_true, if_false]
    refine ⟨h1, ?_, ?_⟩
    · rw [h1, runCommandT_invs]
    · intro hfail
      exact bc_dep_fail m env name comp t t2 hc hs hfail

theorem dep_aggregate_command_witness :
    build_component m3 envSecondFails "alpha" ⟨[], []⟩ =
      (false, (depPhase m3 envSecondFails "alpha" compA t2a).2) :=
  (((dep_aggregate_command m3 envSecondFails "alpha" compA ⟨[], []⟩ t2a
    (by decide) (by decide) (by decide)).2 (by decide)).2.2) (by decide)

/-- C4 counterexample: a command exiting 1 with non-empty captured
stdout prints the progress, command, failure and stderr lines, but no
output line carrying the captured stdout — contradicting the claim that
stdout is written regardless of success. -/
theorem run_command_stdout_cx :
    (runCommandT envFailOut ⟨[], []⟩ "cargo build" "/b" "build step").1 = false
    ∧ (runCommandT envFailOut ⟨[], []⟩ "cargo build" "/b" "build step").2.lines =
        ["🔨 build step", "   Command: cargo build", "❌ Failed: build step",
         "   Error: boom"]
    ∧ ¬ ("   Output: hello" ∈
        (runCommandT envFailOut ⟨[], []⟩ "cargo build" "/b" "build step").2.lines) := by
  refine ⟨by decide, by decide, by decide⟩

/-- C4 (amended): every run of the Command Runner maps a non-zero exit
status and a failure to start the process to `success = false`; the
progress message (the description) and the command line are written
before running; the captured stdout, if non-empty, is written after
running only when the command succeeded, while a non-zero exit writes
the failure line with the captured stderr and a launch failure writes
the error line with the exception message instead. -/
theorem run_command_reporting (env : Nat → ExecOutcome) (t : Trace) (c w d : String) :
    (∀ n out err, env t.invs.length = .exited (n + 1) out err →
      (runCommandT env t c w d).1 = false ∧
      (runCommandT env t c w d).2.lines =
        t.lines ++ ["🔨 " ++ d, "   Command: " ++ c, "❌ Failed: " ++ d, "   Error: " ++ err])
    ∧ (∀ msg, env t.invs.length = .launchFailure msg →
      (runCommandT env t c w d).1 = false ∧
      (runCommandT env t c w d).2.lines =
        t.lines ++ ["🔨 " ++ d, "   Command: " ++ c, "❌ Error: " ++ d,
          "   Exception: " ++ msg])
    ∧ (∀ out err, env t.invs.length = .exited 0 out err → out ≠ "" →
      (runCommandT env t c w d).1 = true ∧
      (runCommandT env t c w d).2.lines =
        t.lines ++ ["🔨 " ++ d, "   Command: " ++ c, "   Output: " ++ pyStrip out]) := by
  refine ⟨?_, ?_, ?_⟩
  · intro n out err h
    constructor
    · rw [runCommandT_fst, h]
      rfl
    · simp [runCommandT, h]
  · intro msg h
    constructor
    · rw [runCommandT_fst, h]
      rfl
    · simp [runCommandT, h]
  · intro out err h hne
    constructor
    · rw [runCommandT_fst, h]
      rfl
    · simp [runCommandT, h, hne]

theorem run_command_reporting_witness :
    (runCommandT envFailOut ⟨[], []⟩ "c" "/b" "d").1 = false
    ∧ (runCommandT envLaunch ⟨[], []⟩ "c" "/b" "d").1 = false :=
  ⟨((run_command_reporting envFailOut ⟨[], []⟩ "c" "/b" "d").1 0 "hello" "boom" rfl).1,
   ((run_command_reporting envLaunch ⟨[], []⟩ "c" "/b" "d").2.1 "no such file" rfl).1⟩

/-- C5: for every known component, the first invocation of
`build_component` is the scaffolding command (`cargo new <name> --lib`
in `basePath`), unconditionally and regardless of the declared
`buildSteps`; and if that scaffolding invocation fails the component
reports failure immediately with no other invocation. -/
theorem scaffold_always_first (m : Manifest) (env : Nat → ExecOutcome)
    (name : String) (comp : Component) (t : Trace)
    (hc : m.components.lookup name = some comp) :
    (∃ rest, (build_component m env name t).2.invs =
      t.invs ++ (scaffoldInv m name :: rest))
    ∧ ((env t.invs.length).success = false →
      (build_component m env name t).1 = false ∧
      (build_component m env name t).2.invs = t.invs ++ [scaffoldInv m name]) := by
  refine ⟨bc_first_inv m env name comp t hc, ?_⟩
  intro h
  have h0 : (scaffoldPhase m env name (addLines t (componentHeader name comp))).1 = false := by
    rw [scaffoldPhase_fst, addLines_invs]
    exact h
  rw [bc_scaffold_fail m env name comp t hc h0]
  refine ⟨rfl, ?_⟩
  rw [scaffoldPhase_invs, addLines_invs]

theorem scaffold_always_first_witness :
    (build_component m3 envLaunch "alpha" ⟨[], []⟩).1 = false
    ∧ (build_component m3 envLaunch "alpha" ⟨[], []⟩).2.invs =
        (⟨[], []⟩ : Trace).invs ++ [scaffoldInv m3 "alpha"] :=
  (scaffold_always_first m3 envLaunch "alpha" compA ⟨[], []⟩ rfl).2 rfl

/-- C6: the generic-build-step loop and the test-step loop run their
steps in declared order (the trace extends by the image of an initial
segment of the declared list), and every step invocation uses the
component subdirectory of `basePath` as working directory when the
command text contains `cd`, and `basePath` otherwise. -/
theorem step_cwd_rule (m : Manifest) (env : Nat → ExecOutcome) (name : String)
    (comp : Component) (t : Trace) :
    (buildPhase m env name comp t).2.invs =
      t.invs ++ (((genericSteps comp.buildSteps).take
        (runCount env t.invs.length (genericSteps comp.buildSteps).length)).map
          (stepInv m name))
    ∧ (testPhase m env name comp t).2.invs =
      t.invs ++ ((comp.testSteps.take
        (runCount env t.invs.length comp.testSteps.length)).map (stepInv m name))
    ∧ ∀ s : Step, stepInv m name s =
        ⟨s.command,
         if containsSub "cd" s.command then pathJoin m.basePath name else m.basePath,
         s.description.getD s.name⟩ :=
  ⟨runSteps_invs m env name (genericSteps comp.buildSteps) t,
   runSteps_invs m env name comp.testSteps t,
   fun _ => rfl⟩

/-- C7: the quality checks run in mapping order, each with `basePath`
as working directory; the loop succeeds exactly when every check
succeeds, the invocations are the image of an initial segment of the
mapping that stops at the first failing check (so later checks are never
invoked), and the quality-check CLI command exits 0 on success and 1 on
failure. -/
theorem quality_checks_order (m : Manifest) (env : Nat → ExecOutcome) :
    (run_quality_checks m env ⟨[], []⟩).1 = allOk env 0 m.qualityChecks.length
    ∧ (run_quality_checks m env ⟨[], []⟩).2.invs =
        (m.qualityChecks.take (runCount env 0 m.qualityChecks.length)).map (checkInv m)
    ∧ (∀ j, j < m.qualityChecks.length →
        (∀ i, i < j → (env i).success = true) → (env j).success = false →
        runCount env 0 m.qualityChecks.length = j + 1)
    ∧ (mainRun m env ["quality-check"]).1 =
        some (if (run_quality_checks m env ⟨[], []⟩).1 then 0 else 1) := by
  refine ⟨?_, ?_, ?_, rfl⟩
  · exact runChecks_fst m env m.qualityChecks (addLine ⟨[], []⟩ "\n🔍 Running quality checks...")
  · exact runChecks_invs m env m.qualityChecks (addLine ⟨[], []⟩ "\n🔍 Running quality checks...")
  · intro j hj hok hf
    refine runCount_firstFail env m.qualityChecks.length 0 j hj ?_ ?_
    · intro i hi
      rw [Nat.zero_add]
      exact hok i hi
    · rw [Nat.zero_add]
      exact hf

theorem quality_checks_order_witness :
    runCount envSecondFails 0 mQ.qualityChecks.length = 1 + 1
    ∧ (mainRun mQ envSecondFails ["quality-check"]).1 =
        some (if (run_quality_checks mQ envSecondFails ⟨[], []⟩).1 then 0 else 1) :=
  ⟨(quality_checks_order mQ envSecondFails).2.2.1 1 (by decide) (by decide) (by decide),
   (quality_checks_order mQ envSecondFails).2.2.2⟩

/-- C8: for every component name absent from the component mapping,
`list_variants` only prints the unknown-component line and performs no
invocation, and `build_component` fails with the unknown-component line
and no invocation, so the build CLI command exits with code 1. -/
theorem unknown_component_behaviour (m : Manifest) (env : Nat → ExecOutcome)
    (name : String) (t : Trace) (hc : m.components.lookup name = none) :
    list_variants m (some name) t = addLine t ("❌ Unknown component: " ++ name)
    ∧ (list_variants m (some name) t).invs = t.invs
    ∧ build_component m env name t = (false, addLine t ("❌ Unknown component: " ++ name))
    ∧ (mainRun m env ["build", name]).1 = some 1 := by
  have h1 : list_variants m (some name) t = addLine t ("❌ Unknown component: " ++ name) := by
    unfold list_variants
    simp only [hc]
  refine ⟨h1, by rw [h1, addLine_invs], bc_unknown m env name t hc, ?_⟩
  have h2 : (mainRun m env ["build", name]).1 =
      some (if (build_component m env name ⟨[], []⟩).1 then 0 else 1) := rfl
  rw [h2, bc_unknown m env name ⟨[], []⟩ hc]
  simp

theorem unknown_component_behaviour_witness :
    build_component mU envAllOk "y" ⟨[], []⟩ =
      (false, addLine ⟨[], []⟩ ("❌ Unknown component: " ++ "y"))
    ∧ (mainRun mU envAllOk ["build", "y"]).1 = some 1 :=
  ⟨(unknown_component_behaviour mU envAllOk "y" ⟨[], []⟩ rfl).2.2.1,
   (unknown_component_behaviour mU envAllOk "y" ⟨[], []⟩ rfl).2.2.2⟩

/-- C9 counterexample: a manifest without a `buildOrder` key makes the
full run raise `KeyError` instead of reporting success, because the code
indexes the key unconditionally. -/
theorem missing_buildOrder_cx :
    build_all_components mNone envAllOk ⟨[], []⟩ = .error "KeyError: buildOrder" := rfl

/-- C9 (amended): for every manifest whose `buildOrder` is present and
empty, a full run reports success and performs zero step invocations;
an absent `buildOrder` instead raises an error before any component is
handled. -/
theorem empty_buildOrder_trivial_success (m : Manifest) (env : Nat → ExecOutcome)
    (t : Trace) (h : m.buildOrder = some []) :
    build_all_components m env t =
      .ok (true, addLines t ["🚀 Starting full build process...",
        "🎉 All components built successfully!"])
    ∧ (addLines t ["🚀 Starting full build process...",
        "🎉 All components built successfully!"]).invs = t.invs := by
  constructor
  · unfold build_all_components
    rw [h]
    simp [buildAllFrom, addLine, addLines]
  · rfl

theorem empty_buildOrder_trivial_success_witness :
    build_all_components mEmpty envAllOk ⟨[], []⟩ =
      .ok (true, addLines ⟨[], []⟩ ["🚀 Starting full build process...",
        "🎉 All components built successfully!"]) :=
  (empty_buildOrder_trivial_success mEmpty envAllOk ⟨[], []⟩ rfl).1

/-- C10: the executed argument vector of every invocation is exactly the
whitespace-split token list of its command string, with no shell
interpretation; concretely, the synthesized dependency command of the
`alpha` component is launched with `cd` as its program token and the
shell operator token passed through as a literal argument. -/
theorem argv_whitespace_split :
    (∀ (c w d : String), execArgv ⟨c, w, d⟩ = pySplit c)
    ∧ (build_component m3 envAllOk "alpha" ⟨[], []⟩).2.invs[1]? =
        some ⟨"cd alpha && cargo add serde", "/b", "Add dependencies for alpha"⟩
    ∧ execArgv ⟨"cd alpha && cargo add serde", "/b", "Add dependencies for alpha"⟩ =
        ["cd", "alpha", "&&", "cargo", "add", "serde"]
    ∧ (execArgv ⟨"cd alpha && cargo add serde", "/b", "Add dependencies for alpha"⟩).head? =
        some "cd"
    ∧ "&&" ∈ execArgv ⟨"cd alpha && cargo add serde", "/b", "Add dependencies for alpha"⟩ := by
  refine ⟨fun _ _ _ => rfl, by decide, by decide, by decide, by decide⟩

end Build
